import Mathlib

/-!
Verification of the core of the trycmd repository (a command-line wrapper
that runs a command inside a shell and reports its exit status).

The development shallowly embeds the C sources:
  * src/trycmd_util.c   : trycmd_align_sz, trycmd_is_color_enabled,
                          trycmd_needs_quoting, trycmd_pretty_print_arg,
                          trycmd_print_argv
  * src/trycmd_subcmd.c : trycmd_make_shell_cmd, trycmd_run_subcommand,
                          trycmd_show_exit_status, plus the stale duplicate
                          copies of the quoting and printing helpers that
                          this translation unit also defines (they differ
                          from the trycmd_util.c versions and are embedded
                          under a _subcmd suffix).

C strings are embedded as List Char (a byte is a Char; the no-NUL
convention of C strings appears as explicit hypotheses where a claim
mentions it).  Output streams are embedded by returning the list of
characters written.  Machine integers only appear as sizes (Nat) and as
wait statuses (Nat, with the low 16 bits relevant) and exit codes.
-/

namespace Trycmd

/-! ## Character constants (kept out of literals for clarity) -/

def squote : Char := Char.ofNat 39

def bslash : Char := Char.ofNat 92

def dquote : Char := Char.ofNat 34

def escChar : Char := Char.ofNat 27

def nulChar : Char := Char.ofNat 0

def btick : Char := Char.ofNat 96

/-! ## trycmd_util.c : trycmd_align_sz -/

/-- Embedding of trycmd_align_sz (trycmd_util.c lines 21-37): round sz up
to the next multiple of alignment. -/
def trycmd_align_sz (sz alignment : Nat) : Nat :=
  if sz % alignment ≠ 0 then sz + (alignment - sz % alignment) else sz

theorem le_trycmd_align_sz (sz alignment : Nat) : sz ≤ trycmd_align_sz sz alignment := by
  unfold trycmd_align_sz
  split <;> omega

/-! ## isalnum and the quoting predicate -/

/-- Model of the C isalnum in the C locale, on bytes: true exactly on
the ASCII digits and letters. -/
def isalnum (c : Char) : Bool :=
  decide ((('0' ≤ c ∧ c ≤ '9') ∨ ('a' ≤ c ∧ c ≤ 'z') ∨ ('A' ≤ c ∧ c ≤ 'Z')))

/-- Embedding of trycmd_needs_quoting from trycmd_util.c lines 104-116:
underscore, hyphen, dot and slash are allowed, otherwise the character
needs quoting unless it is alphanumeric. -/
def trycmd_needs_quoting (c : Char) : Bool :=
  if c = '_' ∨ c = '-' ∨ c = '.' ∨ c = '/' then false
  else ! isalnum c

/-- Embedding of the stale duplicate trycmd_needs_quoting compiled into
trycmd_subcmd.c (lines 247-258): identical except that dot is absent
from the allow-list. -/
def trycmd_needs_quoting_subcmd (c : Char) : Bool :=
  if c = '_' ∨ c = '-' ∨ c = '/' then false
  else ! isalnum c

/-- The character set the specification names as unquoted-safe:
digits, letters, underscore, hyphen, dot, slash.  This definition follows
the words of the spec (its section 8, second bullet) and is compared
against the source-derived trycmd_needs_quoting. -/
def specSafeChar (c : Char) : Bool :=
  decide ((('0' ≤ c ∧ c ≤ '9') ∨ ('a' ≤ c ∧ c ≤ 'z') ∨ ('A' ≤ c ∧ c ≤ 'Z'))
          ∨ c = '_' ∨ c = '-' ∨ c = '.' ∨ c = '/')

theorem needs_quoting_eq_false_iff (c : Char) :
    trycmd_needs_quoting c = false ↔ specSafeChar c = true := by
  unfold trycmd_needs_quoting specSafeChar isalnum
  by_cases h : c = '_' ∨ c = '-' ∨ c = '.' ∨ c = '/'
  · simp only [if_pos h, decide_eq_true_eq]
    tauto
  · simp only [if_neg h, Bool.not_eq_false', decide_eq_true_eq]
    tauto

/-! ## The single-quoting loop of trycmd_pretty_print_arg

The C loop (trycmd_util.c lines 144-166) walks the argument with strchr,
cutting it at every single quote: every maximal quote-free segment is
printed inside single quotes when nonempty, and every single quote of the
argument is printed as a backslash-escaped quote.  splitSegs performs the
cutting, renderSegs the printing. -/

def splitSegs : List Char → List (List Char)
  | [] => [[]]
  | c :: cs =>
    if c = squote then [] :: splitSegs cs
    else
      match splitSegs cs with
      | [] => [[c]]
      | h :: t => (c :: h) :: t

/-- Print one quote-free segment: inside single quotes when nonempty,
nothing when empty (the C loop checks apos != bpos and *apos). -/
def renderSeg (seg : List Char) : List Char :=
  if seg.isEmpty then [] else squote :: seg ++ [squote]

def renderSegs : List (List Char) → List Char
  | [] => []
  | [seg] => renderSeg seg
  | seg :: rest => renderSeg seg ++ bslash :: squote :: renderSegs rest

/-- The quoted form an argument is printed in when it needs quoting. -/
def quoteArg (s : List Char) : List Char := renderSegs (splitSegs s)

/-- Common body of the two pretty_print_arg translation units: scan for a
character that needs quoting; print verbatim when none is found, print the
quoted form otherwise. -/
def pretty_core (nq : Char → Bool) (s : List Char) : List Char :=
  if s.any nq then quoteArg s else s

/-- Embedding of trycmd_pretty_print_arg from trycmd_util.c lines 118-167
(the characters it writes to the stream). -/
def trycmd_pretty_print_arg (s : List Char) : List Char :=
  pretty_core trycmd_needs_quoting s

/-- Embedding of the stale duplicate trycmd_pretty_print_arg compiled into
trycmd_subcmd.c (lines 260-309); it uses the quoting predicate of its own
translation unit. -/
def trycmd_pretty_print_arg_subcmd (s : List Char) : List Char :=
  pretty_core trycmd_needs_quoting_subcmd s

/-- The argument loop shared by both trycmd_print_argv variants: a space
before every argument, then the argument pretty-printed. -/
def printArgvArgs (pp : List Char → List Char) : List (List Char) → List Char
  | [] => []
  | a :: rest => ' ' :: pp a ++ printArgvArgs pp rest

/-- Embedding of trycmd_print_argv from trycmd_util.c lines 169-186:
prefix, then the arguments, then a terminating newline. -/
def trycmd_print_argv (pfx : List Char) (argv : List (List Char)) : List Char :=
  pfx ++ printArgvArgs trycmd_pretty_print_arg argv ++ ['\n']

/-- Embedding of the stale duplicate trycmd_print_argv compiled into
trycmd_subcmd.c (lines 311-325): same shape but with no terminating
newline, and using the pretty-printer of its own translation unit. -/
def trycmd_print_argv_subcmd (pfx : List Char) (argv : List (List Char)) : List Char :=
  pfx ++ printArgvArgs trycmd_pretty_print_arg_subcmd argv

/-! ## A POSIX shell word evaluator

To state the round-trip law of the spec (section 4.4 and section 8, third
bullet) we evaluate a printed argument as a single POSIX shell word.  The
evaluator covers the fragment every POSIX-compatible shell agrees on:
bare non-special characters stand for themselves, a backslash escapes the
next character, and a single-quoted run stands for its characters
verbatim.  Anything outside that fragment (an unterminated quote, a bare
metacharacter, whitespace, double quotes, expansions) is rejected with
none rather than given a shell-specific meaning. -/

def isShellSpecialBare (c : Char) : Bool :=
  decide (c = ' ' ∨ c.toNat = 9 ∨ c = '\n' ∨ c = dquote ∨ c = squote ∨ c = bslash
          ∨ c = '$' ∨ c = btick ∨ c = '*' ∨ c = '?' ∨ c = '[' ∨ c = '|' ∨ c = '&'
          ∨ c = ';' ∨ c = '<' ∨ c = '>' ∨ c = '(' ∨ c = ')' ∨ c = '#' ∨ c = '~')

/-- Mode of the one-character-at-a-time word evaluator: outside quotes,
inside a single-quoted run, or right after a bare backslash. -/
inductive EvalMode where
  | bare
  | quoted
  | esc
deriving DecidableEq

/-- One-word shell evaluation as a state machine over the modes above. -/
def shellEvalAux : EvalMode → List Char → Option (List Char)
  | .bare, [] => some []
  | .bare, c :: cs =>
    if c = bslash then shellEvalAux .esc cs
    else if c = squote then shellEvalAux .quoted cs
    else if isShellSpecialBare c then none
    else (shellEvalAux .bare cs).map (fun t => c :: t)
  | .esc, [] => none
  | .esc, d :: ds => (shellEvalAux .bare ds).map (fun t => d :: t)
  | .quoted, [] => none
  | .quoted, c :: cs =>
    if c = squote then shellEvalAux .bare cs
    else (shellEvalAux .quoted cs).map (fun t => c :: t)

def shellEvalWord (s : List Char) : Option (List Char) := shellEvalAux .bare s

/-- The intended reading of a segment list: the segments with the single
quotes that separated them put back. -/
def joinQ : List (List Char) → List Char
  | [] => []
  | [seg] => seg
  | seg :: rest => seg ++ squote :: joinQ rest

theorem evalAux_bare_squote (X : List Char) :
    shellEvalAux .bare (squote :: X) = shellEvalAux .quoted X := by
  rw [shellEvalAux, if_neg (by decide), if_pos rfl]

theorem evalAux_bare_bslash (d : Char) (X : List Char) :
    shellEvalAux .bare (bslash :: d :: X) =
      (shellEvalAux .bare X).map (fun t => d :: t) := by
  rw [shellEvalAux, if_pos rfl, shellEvalAux]

theorem evalAux_quoted_squote (X : List Char) :
    shellEvalAux .quoted (squote :: X) = shellEvalAux .bare X := by
  rw [shellEvalAux, if_pos rfl]

theorem evalAux_quoted_cons (c : Char) (X : List Char) (h : c ≠ squote) :
    shellEvalAux .quoted (c :: X) = (shellEvalAux .quoted X).map (fun t => c :: t) := by
  rw [shellEvalAux, if_neg h]

theorem evalAux_quoted_append (seg t : List Char) (h : squote ∉ seg) :
    shellEvalAux .quoted (seg ++ squote :: t) =
      (shellEvalAux .bare t).map (fun r => seg ++ r) := by
  induction seg with
  | nil =>
    rw [List.nil_append, evalAux_quoted_squote]
    cases shellEvalAux .bare t <;> simp
  | cons c cs ih =>
    have hc : c ≠ squote := fun hh => h (by simp [hh])
    have hcs : squote ∉ cs := fun hm => h (List.mem_cons_of_mem _ hm)
    rw [List.cons_append, evalAux_quoted_cons c _ hc, ih hcs]
    cases shellEvalAux .bare t <;> simp

theorem evalAux_renderSeg_append (seg t : List Char) (h : squote ∉ seg) :
    shellEvalAux .bare (renderSeg seg ++ t) =
      (shellEvalAux .bare t).map (fun r => seg ++ r) := by
  by_cases hseg : seg.isEmpty
  · rw [List.isEmpty_iff] at hseg
    subst hseg
    simp only [renderSeg, if_pos List.isEmpty_nil, List.nil_append]
    cases shellEvalAux .bare t <;> simp
  · simp only [renderSeg, if_neg hseg]
    have heq : (squote :: seg ++ [squote]) ++ t = squote :: (seg ++ squote :: t) := by
      simp
    rw [heq, evalAux_bare_squote, evalAux_quoted_append seg t h]

theorem evalAux_renderSegs (segs : List (List Char)) (hne : segs ≠ [])
    (hq : ∀ seg ∈ segs, squote ∉ seg) :
    shellEvalAux .bare (renderSegs segs) = some (joinQ segs) := by
  induction segs with
  | nil => exact absurd rfl hne
  | cons seg rest ih =>
    cases rest with
    | nil =>
      have h1 : squote ∉ seg := hq seg (by simp)
      have h2 := evalAux_renderSeg_append seg [] h1
      rw [List.append_nil] at h2
      simp only [renderSegs, joinQ, h2, shellEvalAux, Option.map_some']
      simp
    | cons s2 t =>
      have h1 : squote ∉ seg := hq seg (by simp)
      show shellEvalAux .bare (renderSeg seg ++ bslash :: squote :: renderSegs (s2 :: t)) =
        some (joinQ (seg :: s2 :: t))
      rw [evalAux_renderSeg_append seg _ h1, evalAux_bare_bslash,
          ih (by simp) (fun x hx => hq x (List.mem_cons_of_mem _ hx))]
      simp [joinQ]

theorem splitSegs_ne_nil (s : List Char) : splitSegs s ≠ [] := by
  induction s with
  | nil => simp [splitSegs]
  | cons c cs ih =>
    simp only [splitSegs]
    split
    · simp
    · cases h : splitSegs cs <;> simp

theorem splitSegs_no_quote (s : List Char) : ∀ seg ∈ splitSegs s, squote ∉ seg := by
  induction s with
  | nil =>
    intro seg hseg
    simp only [splitSegs, List.mem_singleton] at hseg
    subst hseg
    simp
  | cons c cs ih =>
    intro seg hseg
    by_cases hc : c = squote
    · rw [splitSegs, if_pos hc] at hseg
      rcases List.mem_cons.mp hseg with h | h
      · subst h; simp
      · exact ih seg h
    · rw [splitSegs, if_neg hc] at hseg
      rcases hcs : splitSegs cs with _ | ⟨a, b⟩
      · exact absurd hcs (splitSegs_ne_nil cs)
      · rw [hcs] at hseg
        rcases List.mem_cons.mp hseg with h | h
        · subst h
          intro hmem
          rcases List.mem_cons.mp hmem with h2 | h2
          · exact hc h2.symm
          · exact ih a (by rw [hcs]; exact List.mem_cons_self a b) h2
        · exact ih seg (by rw [hcs]; exact List.mem_cons_of_mem _ h)

theorem joinQ_cons_two (seg s2 : List Char) (t : List (List Char)) :
    joinQ (seg :: s2 :: t) = seg ++ squote :: joinQ (s2 :: t) := rfl

theorem joinQ_cons_cons (c : Char) (h : List Char) (t : List (List Char)) :
    joinQ ((c :: h) :: t) = c :: joinQ (h :: t) := by
  cases t <;> simp [joinQ]

theorem joinQ_splitSegs (s : List Char) : joinQ (splitSegs s) = s := by
  induction s with
  | nil => rfl
  | cons c cs ih =>
    by_cases hc : c = squote
    · subst hc
      rw [splitSegs, if_pos rfl]
      rcases h : splitSegs cs with _ | ⟨a, b⟩
      · exact absurd h (splitSegs_ne_nil cs)
      · rw [h] at ih
        show joinQ ([] :: a :: b) = squote :: cs
        rw [joinQ_cons_two, List.nil_append, ih]
    · rw [splitSegs, if_neg hc]
      rcases h : splitSegs cs with _ | ⟨a, b⟩
      · exact absurd h (splitSegs_ne_nil cs)
      · rw [h] at ih
        rw [joinQ_cons_cons, ih]

/-- The quoted printing of any argument evaluates back to that argument. -/
theorem shellEval_quoteArg (s : List Char) : shellEvalWord (quoteArg s) = some s := by
  unfold shellEvalWord quoteArg
  rw [evalAux_renderSegs _ (splitSegs_ne_nil s) (splitSegs_no_quote s), joinQ_splitSegs]

/-! ## The invocation configuration (struct trycmd_opts, trycmd.h lines 26-89)

opt_help is omitted (never read by the embedded core) and opt_sub_argc is
represented by the length of opt_sub_argv, which is how every claim uses a
valid configuration. -/

inductive trycmd_color where
  | never
  | always
  | auto
deriving DecidableEq

structure trycmd_opts where
  opt_interactive : Bool
  opt_color : trycmd_color
  opt_shell : List Char
  opt_verbose : Bool
  opt_sub_argv : List (List Char)
deriving DecidableEq

/-! ## trycmd_util.c : trycmd_is_color_enabled (lines 79-102)

The stream argument appears only through the one bit the C reads from it:
whether isatty holds of its descriptor. -/

def trycmd_is_color_enabled (c : trycmd_color) (os_isatty : Bool) : Bool :=
  match c with
  | .never => false
  | .always => true
  | .auto => os_isatty

/-! ## trycmd_subcmd.c : trycmd_make_shell_cmd (lines 33-145)

The byte buffer is embedded by its arithmetic: the sizes the C computes
from the options, the spans of bytes the writing pass touches (offsets
into the char-aligned buffer), and the argument vector it builds (an
entry none is the terminating NULL pointer).  sizeof(char pointer) is 8.
strnlen of a string is embedded as its length (PATH_MAX truncation never
fires on a valid configuration). -/

def ptrSz : Nat := 8

def shell_arg0_ext : List Char := [dquote, '$', '@', dquote]

def shell_opt_interactive : List Char := ['-', 'i']

def shell_opt_command : List Char := ['-', 'c']

def shell_opts_end : List Char := ['-', '-']

def argc_required (o : trycmd_opts) : Nat :=
  5 + (if o.opt_interactive then 1 else 0) + o.opt_sub_argv.length

def shell_sz (o : trycmd_opts) : Nat := o.opt_shell.length + 1

def shell_arg0_sz (o : trycmd_opts) : Nat :=
  (o.opt_sub_argv.headD []).length + (shell_arg0_ext.length + 1) + 1

def argc_sz (o : trycmd_opts) : Nat := ptrSz * argc_required o

def min_buflen (o : trycmd_opts) : Nat :=
  argc_sz o + shell_sz o
    + (if o.opt_interactive then shell_opt_interactive.length + 1 else 0)
    + (shell_opt_command.length + 1)
    + (shell_opts_end.length + 1)
    + shell_arg0_sz o + 1

def required_buflen (o : trycmd_opts) : Nat := trycmd_align_sz (min_buflen o) ptrSz

/-- The command script handed to the shell: the first subcommand token, a
space, and the literal dollar-at in double quotes. -/
def shell_script (o : trycmd_opts) : List Char :=
  o.opt_sub_argv.headD [] ++ ' ' :: shell_arg0_ext

/-- The argument vector the writing pass stores through argv_out, in
write order; none is the final NULL. -/
def build_argv (o : trycmd_opts) : List (Option (List Char)) :=
  some o.opt_shell ::
    ((if o.opt_interactive then [some shell_opt_interactive] else []) ++
      some shell_opt_command :: some shell_opts_end :: some (shell_script o) ::
        (o.opt_sub_argv.map some ++ [none]))

/-- The byte spans (offset, length) the writing pass stores into the
char-aligned buffer, in program order: the end-of-line marker, the
pointer table, the shell path, the optional interactive flag, the command
flag, the end-of-options marker, and the command script (its trailing NUL
rewrite lands inside the same span). -/
def write_spans (o : trycmd_opts) : List (Nat × Nat) :=
  [(min_buflen o - 2, 2),
   (0, argc_sz o),
   (argc_sz o, shell_sz o)] ++
  (if o.opt_interactive then [(argc_sz o + shell_sz o, shell_opt_interactive.length + 1)] else []) ++
  [(argc_sz o + shell_sz o + (if o.opt_interactive then shell_opt_interactive.length + 1 else 0),
    shell_opt_command.length + 1),
   (argc_sz o + shell_sz o + (if o.opt_interactive then shell_opt_interactive.length + 1 else 0)
      + (shell_opt_command.length + 1),
    shell_opts_end.length + 1),
   (argc_sz o + shell_sz o + (if o.opt_interactive then shell_opt_interactive.length + 1 else 0)
      + (shell_opt_command.length + 1) + (shell_opts_end.length + 1),
    shell_arg0_sz o)]

/-- Embedding of trycmd_make_shell_cmd: the returned size is always the
required size computed from the options alone; the argument vector is
produced (and the buffer written) exactly when the supplied length
reaches it, and is none otherwise --- nothing is written in that case. -/
def trycmd_make_shell_cmd (o : trycmd_opts) (buflen : Nat) :
    Nat × Option (List (Option (List Char))) :=
  (required_buflen o,
   if required_buflen o ≤ buflen then some (build_argv o) else none)

theorem min_buflen_le_required (o : trycmd_opts) :
    min_buflen o ≤ required_buflen o := le_trycmd_align_sz _ _

theorem required_buflen_pos (o : trycmd_opts) : 0 < required_buflen o := by
  have h := min_buflen_le_required o
  have : 0 < min_buflen o := by
    unfold min_buflen
    omega
  omega

/-! ## trycmd_subcmd.c : trycmd_run_subcommand (lines 147-214)

The process primitives are external: the embedding takes the outcome of
the exec as an input.  When execv succeeds the child is the shell and the
parent observes its raw wait status; when execv fails the child falls
through to assert and abort (lines 179-181), so it terminates by SIGABRT
(signal 6) and the parent observes that signal as the wait status. -/

inductive child_outcome where
  | execd (wait_status : Nat)
  | exec_failed
deriving DecidableEq

def TRYCMD_SIGNAL_BASE : Nat := 128

def SIGABRT : Nat := 6

/-- glibc WTERMSIG: the low seven bits of the wait status. -/
def wtermsig (s : Nat) : Nat := s % 128

/-- glibc WIFEXITED: the termination signal bits are all zero. -/
def wifexited (s : Nat) : Bool := wtermsig s == 0

/-- glibc WIFSIGNALED: the signed char cast of (low seven bits plus one),
arithmetically halved, is positive. -/
def wifsignaled (s : Nat) : Bool :=
  let sc : Int := if wtermsig s + 1 < 128 then (wtermsig s : Int) + 1
                  else (wtermsig s : Int) + 1 - 256
  decide (0 < sc / 2)

/-- glibc WEXITSTATUS: bits eight to fifteen of the wait status. -/
def wexitstatus (s : Nat) : Nat := (s / 256) % 256

/-- The status translation of trycmd_run_subcommand lines 196-208. -/
def classify_wait_status (s : Nat) : Nat :=
  if wifexited s then wexitstatus s
  else if wifsignaled s then TRYCMD_SIGNAL_BASE + wtermsig s
  else 255

/-- Embedding of trycmd_run_subcommand: build the command (its size is
always positive), run the child, classify the wait status. -/
def trycmd_run_subcommand (o : trycmd_opts) (oc : child_outcome) : Nat :=
  if 0 < (trycmd_make_shell_cmd o 0).1 then
    match oc with
    | .execd ws => classify_wait_status ws
    | .exec_failed => classify_wait_status SIGABRT
  else 255

/-! ## trycmd_subcmd.c : trycmd_show_exit_status (lines 216-245)

The format strings are embedded with the gettext hook as the identity (no
translation catalog is installed in the embedded runs, as in the test
suite).  The function prints through the trycmd_print_argv of its own
translation unit.  The returned pair is (characters written, return
value). -/

def ansi_green : List Char := [escChar, '[', '1', ';', '3', '2', 'm']

def ansi_red : List Char := [escChar, '[', '1', ';', '3', '1', 'm']

def ansi_reset : List Char := [escChar, '[', '0', 'm']

def divider_line : List Char := List.replicate 78 '='

def int_to_chars (i : Int) : List Char := (toString i).toList

def trycmd_show_exit_status (o : trycmd_opts) (exit_status : Int) :
    List Char × Int :=
  let prologue :=
    if exit_status = 0 then
      ansi_green ++ divider_line ++ '\n' :: ("Success:".toList ++ ansi_reset)
    else
      ansi_red ++ divider_line ++ '\n' ::
        ("Failed (status=".toList ++ int_to_chars exit_status ++ "):".toList ++ ansi_reset)
  let cmd := trycmd_print_argv_subcmd [] o.opt_sub_argv
  let epilogue :=
    if exit_status = 0 then '\n' :: (ansi_green ++ divider_line ++ ansi_reset ++ ['\n'])
    else '\n' :: (ansi_red ++ divider_line ++ ansi_reset ++ ['\n'])
  (prologue ++ cmd ++ epilogue, exit_status)

/-! ## Concrete configurations used by witnesses -/

def binShList : List Char := ['/', 'b', 'i', 'n', '/', 's', 'h']

def trueList : List Char := ['t', 'r', 'u', 'e']

def echoList : List Char := ['e', 'c', 'h', 'o']

def hiList : List Char := ['h', 'i']

def opts_true : trycmd_opts :=
  { opt_interactive := false, opt_color := .never, opt_shell := binShList,
    opt_verbose := false, opt_sub_argv := [trueList] }

def opts_echo_i : trycmd_opts :=
  { opt_interactive := true, opt_color := .auto, opt_shell := binShList,
    opt_verbose := false, opt_sub_argv := [echoList, hiList] }

/-! ## Helper lemmas for the claims -/

theorem classify_eq (s : Nat) :
    classify_wait_status s =
      if s % 128 = 0 then (s / 256) % 256
      else if s % 128 ≤ 126 then 128 + s % 128
      else 255 := by
  unfold classify_wait_status wifexited wifsignaled wexitstatus wtermsig TRYCMD_SIGNAL_BASE
  have hlt : s % 128 < 128 := Nat.mod_lt _ (by norm_num)
  by_cases h0 : s % 128 = 0
  · simp [h0]
  · rw [if_neg (by simp [h0]), if_neg h0]
    by_cases h1 : s % 128 ≤ 126
    · rw [if_pos h1, if_pos]
      simp only [decide_eq_true_eq]
      rw [if_pos (by omega)]
      omega
    · rw [if_neg h1, if_neg]
      simp only [decide_eq_true_eq, not_lt]
      rw [if_neg (by omega)]
      omega

theorem printArgvArgs_eq_join (pp : List Char → List Char) (argv : List (List Char)) :
    printArgvArgs pp argv = (argv.map (fun a => ' ' :: pp a)).join := by
  induction argv with
  | nil => rfl
  | cons a rest ih => simp [printArgvArgs, ih]

/-! ## The claims -/

/-- C1: trycmd_run_subcommand classifies every wait status of the child as
follows: a normal exit with code c (wait status 256 * c) yields c itself;
a termination by signal n, with or without the core-dump bit, yields
128 + n, so signal 11 yields 139 and signal 6 yields 134; every status
that is neither an exit nor a signal termination yields 255. -/
theorem claim_C1_wait_status_classification :
    (∀ c : Nat, c ≤ 255 → classify_wait_status (256 * c) = c) ∧
    (∀ n : Nat, 1 ≤ n → n ≤ 126 →
        classify_wait_status n = 128 + n ∧
        classify_wait_status (128 + n) = 128 + n) ∧
    classify_wait_status 11 = 139 ∧
    classify_wait_status 6 = 134 ∧
    (∀ s : Nat, wifexited s = false → wifsignaled s = false →
        classify_wait_status s = 255) := by
  refine ⟨?_, ?_, by decide, by decide, ?_⟩
  · intro c hc
    rw [classify_eq, if_pos (by omega)]
    omega
  · intro n h1 h2
    constructor
    · rw [classify_eq, if_neg (by omega), if_pos (by omega)]
      omega
    · rw [classify_eq, if_neg (by omega), if_pos (by omega)]
      omega
  · intro s hex hsig
    unfold classify_wait_status
    rw [hex, hsig]
    rfl

/-- Witness for C1 at concrete statuses: exit code 3, signal 11 with and
without the core bit, and the stopped status 127. -/
theorem claim_C1_witness :
    classify_wait_status (256 * 3) = 3 ∧
    classify_wait_status 11 = 139 ∧
    classify_wait_status (128 + 11) = 128 + 11 ∧
    classify_wait_status 127 = 255 :=
  ⟨claim_C1_wait_status_classification.1 3 (by decide),
   claim_C1_wait_status_classification.2.2.1,
   (claim_C1_wait_status_classification.2.1 11 (by decide) (by decide)).2,
   claim_C1_wait_status_classification.2.2.2.2 127 (by decide) (by decide)⟩

/-- C2 counterexample: when the exec primitive itself fails, the child
falls through execv to abort, so the parent observes a SIGABRT
termination and trycmd_run_subcommand returns 134, not the 127 the claim
states. -/
theorem claim_C2_counterexample :
    trycmd_run_subcommand opts_true child_outcome.exec_failed = 134 ∧
      trycmd_run_subcommand opts_true child_outcome.exec_failed ≠ 127 := by
  constructor <;> decide

/-- C2 amended: if the shell executable cannot be exec-ed, the child
aborts and trycmd_run_subcommand returns 128 + SIGABRT = 134; the exit
code 127 an interactive shell user sees for an unresolvable command is
produced by the successfully exec-ed shell itself exiting with status
127, which trycmd_run_subcommand passes through unchanged. -/
theorem claim_C2_amended_exec_failure :
    (∀ o : trycmd_opts, trycmd_run_subcommand o child_outcome.exec_failed = 134) ∧
    (∀ o : trycmd_opts, trycmd_run_subcommand o (child_outcome.execd (256 * 127)) = 127) := by
  constructor <;> intro o <;>
    · unfold trycmd_run_subcommand
      rw [if_pos (by simpa [trycmd_make_shell_cmd] using required_buflen_pos o)]
      decide

/-- C3: for a valid configuration, any call with a buffer length below
the required size writes nothing (no argument vector is produced) and
returns the required size; the returned size is the same on every call,
including the dry-run call with length 0; the call with exactly the
required size succeeds; and every byte span the writing pass touches lies
inside the supplied bounds. -/
theorem claim_C3_sizing_contract (o : trycmd_opts)
    (h1 : o.opt_sub_argv ≠ []) (h2 : o.opt_shell ≠ []) :
    (∀ l : Nat, l < required_buflen o →
        trycmd_make_shell_cmd o l = (required_buflen o, none)) ∧
    trycmd_make_shell_cmd o 0 = (required_buflen o, none) ∧
    (trycmd_make_shell_cmd o (required_buflen o)).2 = some (build_argv o) ∧
    (∀ l : Nat, (trycmd_make_shell_cmd o l).1 = required_buflen o) ∧
    (∀ sp ∈ write_spans o, sp.1 + sp.2 ≤ required_buflen o) := by
  have hpos := required_buflen_pos o
  have hmin := min_buflen_le_required o
  refine ⟨?_, ?_, ?_, fun l => rfl, ?_⟩
  · intro l hl
    unfold trycmd_make_shell_cmd
    rw [if_neg (by omega)]
  · unfold trycmd_make_shell_cmd
    rw [if_neg (by omega)]
  · unfold trycmd_make_shell_cmd
    rw [if_pos le_rfl]
  · intro sp hsp
    have hge : 7 ≤ min_buflen o := by
      have e2 : shell_opt_command.length = 2 := rfl
      have e3 : shell_opts_end.length = 2 := rfl
      unfold min_buflen
      rw [e2, e3]
      omega
    have hexp : argc_sz o + shell_sz o + (if o.opt_interactive then 3 else 0) + 3 + 3
        + shell_arg0_sz o + 1 = min_buflen o := rfl
    have e1 : shell_opt_interactive.length = 2 := rfl
    have e2 : shell_opt_command.length = 2 := rfl
    have e3 : shell_opts_end.length = 2 := rfl
    by_cases hi : o.opt_interactive
    · rw [if_pos hi] at hexp
      simp [write_spans, hi] at hsp
      rcases hsp with h | h | h | h | h | h | h <;> subst h <;>
        simp only [e1, e2, e3] <;> omega
    · rw [if_neg hi] at hexp
      simp [write_spans, hi] at hsp
      rcases hsp with h | h | h | h | h | h <;> subst h <;>
        simp only [e1, e2, e3] <;> omega

/-- Witness for C3 at a concrete valid configuration. -/
theorem claim_C3_witness :
    trycmd_make_shell_cmd opts_true 0 = (required_buflen opts_true, none) ∧
      (trycmd_make_shell_cmd opts_true (required_buflen opts_true)).2 =
        some (build_argv opts_true) :=
  ⟨(claim_C3_sizing_contract opts_true (by decide) (by decide)).2.1,
   (claim_C3_sizing_contract opts_true (by decide) (by decide)).2.2.1⟩

/-- C4: in writing mode the produced argument vector is exactly, in
order: the shell path; the -i element if and only if the interactive flag
is set; -c; the end-of-options marker; the script made of the first
subcommand token, a space, and the quoted dollar-at suffix; all original
subcommand arguments in order; and a terminating NULL. -/
theorem claim_C4_argv_layout (o : trycmd_opts) (a0 : List Char)
    (rest : List (List Char)) (h : o.opt_sub_argv = a0 :: rest) :
    (trycmd_make_shell_cmd o (required_buflen o)).2 =
      some (some o.opt_shell ::
        ((if o.opt_interactive then [some ['-', 'i']] else []) ++
          some ['-', 'c'] :: some ['-', '-'] ::
            some (a0 ++ ' ' :: [dquote, '$', '@', dquote]) ::
              ((a0 :: rest).map some ++ [none]))) := by
  unfold trycmd_make_shell_cmd
  rw [if_pos le_rfl]
  unfold build_argv shell_script shell_opt_interactive shell_opt_command
    shell_opts_end shell_arg0_ext
  rw [h]
  simp

/-- Witness for C4 at a concrete interactive configuration. -/
theorem claim_C4_witness :
    (trycmd_make_shell_cmd opts_echo_i (required_buflen opts_echo_i)).2 =
      some [some binShList, some ['-', 'i'], some ['-', 'c'], some ['-', '-'],
            some (echoList ++ ' ' :: [dquote, '$', '@', dquote]),
            some echoList, some hiList, none] := by
  simpa using claim_C4_argv_layout opts_echo_i echoList [hiList] rfl

/-- C5: color enablement does resolve as the claim says (never is off,
always is on, auto follows the terminal check), but the banner is not
wrapped in escape codes if and only if color is enabled: the printed
output of trycmd_show_exit_status is independent of the color mode, and
even with the mode never it begins with the green escape sequence.  This
contradicts the claim and the test suite of the repository itself. -/
theorem claim_C5_color_ignored :
    (∀ t : Bool, trycmd_is_color_enabled trycmd_color.never t = false) ∧
    (∀ t : Bool, trycmd_is_color_enabled trycmd_color.always t = true) ∧
    (∀ t : Bool, trycmd_is_color_enabled trycmd_color.auto t = t) ∧
    (∀ (o : trycmd_opts) (c : trycmd_color) (st : Int),
        (trycmd_show_exit_status { o with opt_color := c } st).1 =
          (trycmd_show_exit_status o st).1) ∧
    (trycmd_show_exit_status opts_true 0).1.take 7 = ansi_green := by
  exact ⟨fun t => rfl, fun t => rfl, fun t => rfl, fun o c st => rfl, by decide⟩

/-- C6: every argument containing a character outside the unquoted-safe
set (and no NUL) pretty-prints to a single POSIX shell word that
evaluates back to exactly the original characters; in particular the
argument a-quote-b-quote-c prints as the thirteen-character escaped
form. -/
theorem claim_C6_roundtrip :
    (∀ s : List Char, nulChar ∉ s → (∃ c ∈ s, specSafeChar c = false) →
        shellEvalWord (trycmd_pretty_print_arg s) = some s) ∧
    trycmd_pretty_print_arg ['a', squote, 'b', squote, 'c'] =
      [squote, 'a', squote, bslash, squote, squote, 'b', squote,
       bslash, squote, squote, 'c', squote] := by
  constructor
  · intro s hnul hex
    have hany : s.any trycmd_needs_quoting = true := by
      rcases hex with ⟨c, hc, hcf⟩
      refine List.any_eq_true.mpr ⟨c, hc, ?_⟩
      cases hq : trycmd_needs_quoting c
      · exact absurd ((needs_quoting_eq_false_iff c).mp hq) (by simp [hcf])
      · rfl
    unfold trycmd_pretty_print_arg pretty_core
    rw [if_pos hany]
    exact shellEval_quoteArg s
  · decide

/-- Witness for C6 at the concrete argument of the claim. -/
theorem claim_C6_witness :
    nulChar ∉ (['a', squote, 'b', squote, 'c'] : List Char) ∧
      shellEvalWord (trycmd_pretty_print_arg ['a', squote, 'b', squote, 'c']) =
        some ['a', squote, 'b', squote, 'c'] :=
  ⟨by decide, claim_C6_roundtrip.1 _ (by decide) ⟨squote, by decide, by decide⟩⟩

/-- C7: trycmd_needs_quoting (the trycmd_util.c definition, the one the
test suite pins down) accepts exactly the characters of the set digits,
letters, underscore, hyphen, dot, slash, and every argument made only of
those characters pretty-prints unchanged, with no quotes added. -/
theorem claim_C7_safe_set :
    (∀ c : Char, trycmd_needs_quoting c = false ↔ specSafeChar c = true) ∧
    (∀ s : List Char, (∀ c ∈ s, specSafeChar c = true) →
        trycmd_pretty_print_arg s = s) := by
  refine ⟨needs_quoting_eq_false_iff, ?_⟩
  intro s hs
  have hany : s.any trycmd_needs_quoting = false := by
    rw [List.any_eq_false]
    intro c hc
    have := (needs_quoting_eq_false_iff c).mpr (hs c hc)
    simp [this]
  unfold trycmd_pretty_print_arg pretty_core
  simp [hany]

/-- Witness for C7 at a concrete all-safe argument. -/
theorem claim_C7_witness :
    trycmd_pretty_print_arg ['a', '.', '-', '/', '_', 'Z', '9'] =
      ['a', '.', '-', '/', '_', 'Z', '9'] :=
  claim_C7_safe_set.2 _ (by decide)

/-- C8: trycmd_print_argv prints the prefix label, then each argument
pretty-printed with a single space before each one, and terminates the
output with a newline character. -/
theorem claim_C8_print_argv (pfx : List Char) (argv : List (List Char)) :
    trycmd_print_argv pfx argv =
      pfx ++ (argv.map (fun a => ' ' :: trycmd_pretty_print_arg a)).join ++ ['\n'] := by
  unfold trycmd_print_argv
  rw [printArgvArgs_eq_join]

/-- C9: trycmd_show_exit_status returns exactly the exit status it was
given, for every configuration and status; its only effect is the printed
banner. -/
theorem claim_C9_identity_return (o : trycmd_opts) (st : Int) :
    (trycmd_show_exit_status o st).2 = st := rfl

/-- C10: the empty argument pretty-prints to nothing at all (no
characters, no quotes), so in a printed argument list it leaves only the
separating space and is invisible as a word. -/
theorem claim_C10_empty_invisible :
    trycmd_pretty_print_arg [] = [] ∧
      ∀ pfx : List Char, trycmd_print_argv pfx [[]] = pfx ++ [' ', '\n'] := by
  constructor
  · rfl
  · intro pfx
    show pfx ++ printArgvArgs trycmd_pretty_print_arg [[]] ++ ['\n'] = pfx ++ [' ', '\n']
    simp [printArgvArgs, trycmd_pretty_print_arg, pretty_core]

end Trycmd
